import Mathlib

/-!
# Verification of the ollama-client tool core

A shallow embedding of the tool core of `github.com/swdunlop/ollama-client`:
the schema binder (`chat/tool`), the invoker (`(*tool).Call`), the toolkit
registry (`chat/toolkit`) and the conversation loop (`Chat` in `client.go`),
together with theorems settling the frozen claims about the natural-language
specification of that code.

Modelling conventions:
* Go machine strings are Lean `String`s; raw JSON documents received from the
  model (`json.RawMessage` arguments) are modelled as parsed `Json` trees,
  while raw JSON documents *produced* by the code (tool results, the error
  envelope) are modelled as the `String` the Go code would build.
* Go reflection over callables is modelled by an explicit description of the
  callable's signature (`GoFuncSig`), carrying exactly the shape information
  the binder in `chat/tool/bind.go` inspects: the number and kinds of inputs
  and outputs, whether the first input implements `context.Context`, and
  whether the last output implements `error`.
* Effects are made explicit: the invoker and toolkit return, besides their Go
  results, whether/which wrapped callables were invoked, and the conversation
  loop returns the trace of message histories submitted to the transport.
* The Go `for` loop in `Chat` has no intrinsic bound, so the loop is embedded
  with explicit fuel; exhausting the fuel models divergence.
-/

set_option autoImplicit false

namespace OllamaClient

/-- A JSON document, the model of Go's `encoding/json` value trees. -/
inductive Json where
  | null
  | bool (b : Bool)
  | num (n : Int)
  | str (s : String)
  | arr (elems : List Json)
  | obj (members : List (String × Json))
  deriving Repr

/-- Escape a character the way Go's `%q` verb and JSON string encoder do for
printable ASCII (quotes and backslashes; control and HTML characters are not
used by any claim and are passed through). -/
def goEscapeChar (c : Char) : String :=
  if c = '\\' then "\\\\"
  else if c = '"' then "\\\""
  else String.singleton c

/-- Go's `%q` verb on a string, as used by `fmt.Errorf` in the source. -/
def goQuote (s : String) : String :=
  "\"" ++ String.join (s.data.map goEscapeChar) ++ "\""

/-- Go's `encoding/json` string encoder, as used by `json.Marshal`. -/
def jsonQuoteString (s : String) : String :=
  "\"" ++ String.join (s.data.map goEscapeChar) ++ "\""

/-- The error envelope built by `(*toolkit).Call` in `chat/toolkit/toolkit.go`:
`json.Marshal(struct\x7bError string\x7d\x7bError: err.Error()\x7d)`, which
serializes as an object with sole member `error`. -/
def errorEnvelope (msg : String) : String :=
  "\x7b\"error\":" ++ jsonQuoteString msg ++ "\x7d"

/-! ## The Optional wrapper (`chat/tool/monads.go`) -/

/-- Model of `tool.Optional[T]`: a two-state wrapper used to mark a tool parameter as
optional.  The Go zero value has `present = false` and `value` the zero value
of `T`. -/
structure Optional (T : Type) where
  present : Bool
  value : T
  deriving Repr, DecidableEq

/-- Model of `tool.None[T]()`, with `T`'s zero value made explicit. -/
def Optional.noneOf {T : Type} (zero : T) : Optional T := ⟨false, zero⟩

/-- Model of `tool.Some[T](value)`. -/
def Optional.someOf {T : Type} (v : T) : Optional T := ⟨true, v⟩

/-- The behaviour of Go's `encoding/json` for a concrete underlying type `T`:
its zero value, `json.Marshal`, and `json.Unmarshal` into an existing value
(which may leave that value untouched — Go's `json.Unmarshal` of the literal
`null` into a non-reference value changes nothing and reports no error). -/
structure GoJSONCodec (T : Type) where
  zero : T
  marshal : T → Except String Json
  unmarshalInto : Json → T → Except String T

/-- Model of `Optional.MarshalJSON` from `chat/tool/monads.go`: marshal the value when
present, otherwise `json.Marshal(nil)`, which is the JSON literal `null`. -/
def Optional.marshalJSON {T : Type} (c : GoJSONCodec T) (opt : Optional T) :
    Except String Json :=
  if opt.present then c.marshal opt.value else .ok Json.null

/-- Model of `Optional.UnmarshalJSON` from `chat/tool/monads.go`: declare a fresh zero
`value T`, `json.Unmarshal` the input into it, and on success overwrite the
receiver with `Some(value)` — unconditionally marking it present. -/
def Optional.unmarshalJSON {T : Type} (c : GoJSONCodec T) (js : Json) :
    Except String (Optional T) :=
  match c.unmarshalInto js c.zero with
  | .error e => .error e
  | .ok v => .ok (Optional.someOf v)

/-- Encode then decode an `Optional` value, the round trip of claim C2. -/
def Optional.roundTrip {T : Type} (c : GoJSONCodec T) (opt : Optional T) :
    Except String (Optional T) :=
  match Optional.marshalJSON c opt with
  | .error e => .error e
  | .ok js => Optional.unmarshalJSON c js

/-- Go's `encoding/json` behaviour for `int64`: numbers decode to themselves,
the literal `null` leaves the target value unchanged without error, anything
else fails. -/
def intCodec : GoJSONCodec Int where
  zero := 0
  marshal := fun n => .ok (Json.num n)
  unmarshalInto := fun js v =>
    match js with
    | .num n => .ok n
    | .null => .ok v
    | _ => .error "json: cannot unmarshal value into Go value of type int64"

/-! ## Protocol data model (`chat/protocol/protocol.go`) -/

/-- Message roles. -/
inductive Role where
  | system
  | user
  | assistant
  | tool
  deriving Repr, DecidableEq

/-- Model of `protocol.ToolFunctionProperty`: one parameter of a tool. -/
structure ToolFunctionProperty where
  type : String := ""
  description : String := ""
  enum : List String := []
  deriving Repr, DecidableEq

/-- Model of `protocol.ToolCallFunction`: name and raw arguments of a requested call. -/
structure ToolCallFunction where
  name : String
  arguments : Json
  deriving Repr

/-- Model of `protocol.ToolCall`: Go's `Function *ToolCallFunction` may be nil. -/
structure ToolCall where
  function : Option ToolCallFunction
  deriving Repr

/-- Model of `protocol.Message` (the fields the tool core reads and writes; images are
transport plumbing and carry no behaviour here). -/
structure Message where
  role : Role
  content : String := ""
  toolCalls : List ToolCall := []
  deriving Repr

/-- Model of `protocol.Response` (the fields the conversation loop reads; timing
counters are plumbing). -/
structure Response where
  model : String := ""
  message : Message
  done : Bool := true
  deriving Repr

/-! ## The schema binder (`chat/tool`, file of `bind` / `bindInputParameters`)

Go reflection is embedded as explicit signature descriptions: `GoKind` is
`reflect.Kind` restricted to the kinds the binder distinguishes, `GoField` is
one struct field with the tags the binder reads, and `GoFuncSig` records what
`reflect.Type` reveals about a callable. -/

/-- The `reflect.Kind`s distinguished by `bindInputParameters`; the numeric
kinds `Int..Uint64`, which the Go switch lists individually and treats
identically, are collapsed into `int`.  `float`, `slice` and `iface` fall
into the switch's implicit default, which leaves the inferred type empty. -/
inductive GoKind where
  | array
  | struct
  | map
  | int
  | bool
  | string
  | float
  | slice
  | iface
  deriving Repr, DecidableEq

mutual
/-- One field of a Go struct, as `reflect.StructField` presents it to the
binder: identifier, exportedness, anonymity (embedding), the `json`, `use` and
`type` tags, the field type's kind, and — when the field type is a struct —
its own fields (used by the recursive flattening of embedded structs). -/
inductive GoField where
  | mk (fname : String) (exported anonymous : Bool) (jsonTag : Option String)
      (useTag typeTag : String) (kind : GoKind) (subfields : GoFields)

/-- A list of Go struct fields (a dedicated list type, so that the binder's
recursion over embedded structs is structural). -/
inductive GoFields where
  | nil
  | cons (head : GoField) (tail : GoFields)
end

/-- A Go type as the binder inspects it: its kind, whether it implements
`context.Context`, and its struct fields when it is a struct. -/
structure GoType where
  kind : GoKind
  isContext : Bool := false
  fields : GoFields := .nil

/-- One output of a Go callable: the binder only asks whether it implements
the `error` interface. -/
structure GoOut where
  isError : Bool
  deriving Repr, DecidableEq

/-- What `reflect` reveals about a callable: its runtime name (from
`runtime.FuncForPC`) and its input and output types. -/
structure GoFuncSig where
  goName : String := ""
  inputs : List GoType
  outputs : List GoOut

/-- Model of `name[strings.LastIndexByte(name, '/')+1:]` from `bindFunctionName`: the
characters after the last slash (the whole string when there is none). -/
def afterLastSlash (s : String) : String :=
  String.mk (s.data.foldl (fun acc c => if c = '/' then [] else acc ++ [c]) [])

/-- The characters after the first dot, or `none` when there is no dot. -/
def charsAfterFirstDot : List Char → Option (List Char)
  | [] => none
  | c :: rest => if c = '.' then some rest else charsAfterFirstDot rest

/-- Model of `name[strings.IndexByte(name, '.')+1:]` from `bindFunctionName` (the
whole string when there is no dot). -/
def afterFirstDot (s : String) : String :=
  match charsAfterFirstDot s.data with
  | some r => String.mk r
  | none => s

/-- Model of `(*tool).bindFunctionName`: strip the package path and package name from
the runtime name of the callable. -/
def stripFuncName (s : String) : String :=
  afterFirstDot (afterLastSlash s)

/-- The characters before the first comma: `strings.SplitN(tag, ",", 2)[0]`,
how `bindInputParameters` extracts the name from a `json` tag. -/
def charsBeforeComma : List Char → List Char
  | [] => []
  | c :: rest => if c = ',' then [] else c :: charsBeforeComma rest

/-- The type-inference switch of `bindInputParameters`, applied when no `type`
tag is present.  Kinds outside the switch leave the type empty. -/
def inferJSONType : GoKind → String
  | .array => "array"
  | .struct => "object"
  | .map => "object"
  | .int => "number"
  | .bool => "bool"
  | .string => "string"
  | _ => ""

/-- The in-progress tool of `chat/tool/monads.go` (`type tool struct`),
flattening `spec.Function` into it: descriptor fields, binder metadata, the
pending fixups and the sticky error.  `properties` models the Go map as an
association list without duplicate keys (insertion replaces). -/
structure ToolState where
  name : String := ""
  description : String := ""
  parametersType : String := ""
  properties : List (String × ToolFunctionProperty) := []
  required : List String := []
  inputType : Option GoType := none
  expectsContext : Bool := false
  returnsErrors : Bool := false
  fixups : List (String → String) := []
  err : Option String := none

/-- Map lookup on the association list modelling the Go properties map. -/
def lookupProp (props : List (String × ToolFunctionProperty)) (name : String) :
    Option ToolFunctionProperty :=
  match props.find? (fun pr => pr.1 = name) with
  | some pr => some pr.2
  | none => none

/-- Map insertion (replacing any existing entry), the Go `m[k] = v`. -/
def insertProp (props : List (String × ToolFunctionProperty)) (name : String)
    (p : ToolFunctionProperty) : List (String × ToolFunctionProperty) :=
  match props with
  | [] => [(name, p)]
  | pr :: rest =>
    if pr.1 = name then (name, p) :: rest
    else pr :: insertProp rest name p

/-- Model of `(*tool).updateProperty` on the properties map alone: read the property
(the zero value when absent), improve it, and store it back. -/
def updatePropIn (props : List (String × ToolFunctionProperty)) (parameter : String)
    (fn : ToolFunctionProperty → ToolFunctionProperty) :
    List (String × ToolFunctionProperty) :=
  insertProp props parameter (fn ((lookupProp props parameter).getD {}))

/-- Model of `(*tool).updateProperty`: its only effect on the tool is the map update. -/
def ToolState.updateProperty (t : ToolState) (parameter : String)
    (fn : ToolFunctionProperty → ToolFunctionProperty) : ToolState :=
  { t with properties := updatePropIn t.properties parameter fn }

mutual
/-- The body of the `bindInputParameters` loop for one field: skip unexported
fields, flatten anonymous embedded structs recursively, otherwise derive the
parameter name from the `json` tag (skipping explicitly blank names), pull the
description from the `use` tag and the type from the `type` tag or the kind
switch, and update the property. -/
def bindPropsField (props : List (String × ToolFunctionProperty)) :
    GoField → List (String × ToolFunctionProperty)
  | GoField.mk fname exported anonymous jsonTag useTag typeTag kind subfields =>
    if !exported then props
    else if anonymous then bindProps props subfields
    else
      let name :=
        match jsonTag with
        | some tag => String.mk (charsBeforeComma tag.data)
        | none => fname
      if name = "" then props
      else
        let jsonType := if typeTag = "" then inferJSONType kind else typeTag
        updatePropIn props name (fun fp =>
          let fp := if useTag ≠ "" then { fp with description := useTag } else fp
          if fp.type = "" then { fp with type := jsonType } else fp)

/-- The `bindInputParameters` loop over all fields, in declaration order. -/
def bindProps (props : List (String × ToolFunctionProperty)) :
    GoFields → List (String × ToolFunctionProperty)
  | .nil => props
  | .cons fs rest => bindProps (bindPropsField props fs) rest
end

/-- Model of `(*tool).bindInputParameters` as a tool transformation: the loop body only
ever calls `updateProperty`, so the whole walk touches the properties map and
nothing else — in particular it never appends to `required`. -/
def bindFields (t : ToolState) (fields : GoFields) : ToolState :=
  { t with properties := bindProps t.properties fields }

/-- The output-arity switch of `(*tool).bind` (`ft.NumOut()`): one output is
content; two outputs require the second to implement `error`; anything else
is a bind error. -/
def checkOutputs (t : ToolState) (outputs : List GoOut) : Option ToolState :=
  match outputs with
  | [_] => some t
  | [_, e] => if e.isError then some { t with returnsErrors := true } else none
  | _ => none

/-- The tail of `(*tool).bind` after the input-arity switch succeeded: switch
on the output arity, require the designated input to be a struct, then bind
its fields.  (The `got string` wording mirrors the Go source, whose `%T` verb
is applied to a `String()` result and therefore always prints `string`.) -/
def ToolState.bindWith (t : ToolState) (input : GoType) (outputs : List GoOut) :
    ToolState :=
  match checkOutputs t outputs with
  | none => { t with err := some ("incorrect output parameters for tool " ++ goQuote t.name) }
  | some t =>
    if input.kind = GoKind.struct then
      bindFields { t with inputType := some input } input.fields
    else
      { t with err := some ("incorrect input parameter for tool " ++ goQuote t.name
          ++ "; got string, but a structure is required") }

/-- Model of `(*tool).bind` for a value that is a callable: infer the tool name when
unset, switch on the input arity (one input, or two inputs with the first
optionally a context — zero or three-plus inputs fail), then continue with
`ToolState.bindWith`. -/
def ToolState.bind (t : ToolState) (sig : GoFuncSig) : ToolState :=
  let t := if t.name = "" then { t with name := stripFuncName sig.goName } else t
  match sig.inputs with
  | [a] => ToolState.bindWith t a sig.outputs
  | [a, b] =>
    ToolState.bindWith { t with expectsContext := a.isContext } b sig.outputs
  | _ => { t with err := some ("incorrect input parameters for tool " ++ goQuote t.name) }

/-! ## Tool options, construction and validation (`chat/tool/monads.go`) -/

/-- The tool options of `chat/tool/monads.go`.  `Func` carries the reflected
signature of the Go callable; `CamelNames` is `FixParameterNames` applied to
`strcase.ToLowerCamel` and is subsumed by the `fixParameterNames` case. -/
inductive ToolOption where
  | name (s : String)
  | description (s : String)
  | enum (parameter : String) (values : List String)
  | parameter (parameter parameterType description : String)
  | required (parameters : List String)
  | fixParameterNames (fix : String → String)
  | func (sig : GoFuncSig)

/-- Apply one option to the in-progress tool, as each Go `Option` closure
does. -/
def applyOption (t : ToolState) : ToolOption → ToolState
  | .name s => { t with name := s }
  | .description s => { t with description := s }
  | .enum parameter values =>
    t.updateProperty parameter (fun p => { p with enum := p.enum ++ values })
  | .parameter parameter parameterType description =>
    t.updateProperty parameter
      (fun p => { p with description := description, type := parameterType })
  | .required parameters => { t with required := t.required ++ parameters }
  | .fixParameterNames fix => { t with fixups := t.fixups ++ [fix] }
  | .func sig => t.bind sig

/-- The option loop of `tool.New`: apply each option, aborting as soon as the
sticky error is set. -/
def runOptions (t : ToolState) : List ToolOption → Except String ToolState
  | [] => .ok t
  | o :: rest =>
    let t := applyOption t o
    match t.err with
    | some e => .error e
    | none => runOptions t rest

/-- The fixup produced by `FixParameterNames`: rebuild the properties map with
renamed keys (dropping names mapped to empty; on a rename collision the entry
later in the stored order wins, a deterministic refinement of Go's randomized
map iteration), and filter-rename the required list in place. -/
def fixParameterNamesFixup (fix : String → String) (t : ToolState) : ToolState :=
  let next := t.properties.foldl
    (fun acc pr =>
      let name := fix pr.1
      if name = "" then acc else insertProp acc name pr.2)
    []
  { t with
    properties := next
    required := t.required.filterMap (fun name =>
      let name := fix name
      if name = "" then none else some name) }

/-- The fixup loop of `tool.New`, run after all non-fixup options. -/
def applyFixups (t : ToolState) : ToolState :=
  t.fixups.foldl (fun acc fix => fixParameterNamesFixup fix acc) { t with fixups := [] }

/-- Model of `(*tool).validateDescription`. -/
def validateDescription (t : ToolState) : Option String :=
  if t.description = "" then some "function tools should have a description" else none

/-- Model of `(*tool).validateParameter`. -/
def validateParameter (p : ToolFunctionProperty) : Option String :=
  if p.type = "" then some "missing parameter type"
  else if p.description = "" then some "missing parameter description"
  else none

/-- Model of `(*tool).validateParameters`: reject empty names, then each property. -/
def validateParameters (t : ToolState) : Option String :=
  t.properties.findSome? (fun pr =>
    if pr.1 = "" then some "all parameters must have names"
    else
      match validateParameter pr.2 with
      | some e => some (e ++ " while validating parameter " ++ goQuote pr.1)
      | none => none)

/-- Model of `(*tool).validateRequired`: every required name must be a property. -/
def validateRequired (t : ToolState) : Option String :=
  t.required.findSome? (fun name =>
    match lookupProp t.properties name with
    | some _ => none
    | none => some ("missing required parameter " ++ goQuote name))

/-- Model of `(*tool).validate`. -/
def ToolState.validate (t : ToolState) : Option String :=
  match validateDescription t with
  | some e => some e
  | none =>
    match validateParameters t with
    | some e => some e
    | none => validateRequired t

/-- The initial tool of `tool.New`: `Type = "function"`, fresh function spec,
`Parameters.Type = "object"`, empty properties map. -/
def initialTool : ToolState := { parametersType := "object" }

/-- Model of `tool.New`: apply the options (aborting on the first sticky error), then
the fixups, then validate once. -/
def toolNew (options : List ToolOption) : Except String ToolState :=
  match runOptions initialTool options with
  | .error e => .error e
  | .ok t =>
    let t := applyFixups t
    match t.validate with
    | some e => .error e
    | none => .ok t

/-! ## The invoker (`chat/tool/call.go`) -/

/-- A bound tool at runtime, as `(*tool).Call` uses it: the descriptor name,
the decoding of raw arguments into the structured-parameter type `I`
(`json.Unmarshal` into `reflect.New(t.inputType)`), the wrapped callable
(whose second component models the `error` return value, `none` for nil), the
`returnsErrors` binding metadata, and the encoding of the content type `C`
(`json.Marshal` of the primary return). -/
structure RuntimeTool (I C : Type) where
  name : String
  decodeInput : Json → Except String I
  fn : I → C × Option String
  returnsErrors : Bool
  marshalContent : C → Except String String

/-- Model of `(*tool).Call`: decode the parameters (a failure wraps the cause with the
tool's name and never invokes the callable), invoke the callable, surface a
non-nil declared error return, otherwise encode the content (an encoding
failure again wraps the cause with the tool's name).  The second component
records whether the wrapped callable was invoked. -/
def runtimeCall {I C : Type} (t : RuntimeTool I C) (parameters : Json) :
    Except String String × Bool :=
  match t.decodeInput parameters with
  | .error e => (.error (e ++ " while parsing parameters for " ++ goQuote t.name), false)
  | .ok q =>
    let ret := t.fn q
    match (if t.returnsErrors then ret.2 else none) with
    | some e => (.error e, true)
    | none =>
      match t.marshalContent ret.1 with
      | .error e => (.error (e ++ " while formatting content for " ++ goQuote t.name), true)
      | .ok js => (.ok js, true)

/-! ## The toolkit (`chat/toolkit/toolkit.go`) -/

/-- Model of `tool.Interface` as the toolkit consumes it: the descriptor name reported
by `Tool().Function.Name` and the `Call` method. -/
structure GoToolI where
  specName : String
  call : Json → Except String String

/-- The registration loop of `toolkit.New`: insert every tool into the name
table in order, later entries overwriting earlier ones (`tk.table[name] =
tool`). -/
def buildTable (tools : List GoToolI) : String → Option GoToolI :=
  tools.foldl (fun acc t => Function.update acc t.specName (some t)) (fun _ => none)

/-- Model of `type toolkit struct`: the ordered tool list plus the name table. -/
structure Toolkit where
  list : List GoToolI
  table : String → Option GoToolI

/-- Model of `toolkit.New`: copy the tool slice and build the table.  The Go function
cannot fail (duplicates are silently accepted, the `TODO: nag about
duplicates?` comment notwithstanding). -/
def toolkitNew (tools : List GoToolI) : Toolkit :=
  { list := tools, table := buildTable tools }

/-- Model of `(*toolkit).Tools`: a copy of the registered tools in registration
order. -/
def Toolkit.tools (tk : Toolkit) : List GoToolI := tk.list

/-- The observable outcome of one `(*toolkit).Call`: the tool-role message
(whose content the deferred handler replaces by the error envelope whenever
an error is returned), the returned error, and which tools' callables were
invoked. -/
structure DispatchResult where
  msg : Message
  err : Option String
  invoked : List String
  deriving Repr

/-- Build the failure result the deferred handler produces. -/
def dispatchError (e : String) (invoked : List String) : DispatchResult :=
  { msg := { role := Role.tool, content := errorEnvelope e }
    err := some e
    invoked := invoked }

/-- Model of `(*toolkit).Call`: require a function-style call, look the name up in the
table, delegate to the tool's `Call`, and render any error into the message
content via the deferred envelope writer while still returning it. -/
def Toolkit.dispatch (tk : Toolkit) (call : ToolCall) : DispatchResult :=
  match call.function with
  | none => dispatchError "only tool function calls are supported" []
  | some f =>
    match tk.table f.name with
    | none => dispatchError ("tool " ++ goQuote f.name ++ " not found") []
    | some t =>
      match t.call f.arguments with
      | .error e => dispatchError e [f.name]
      | .ok content =>
        { msg := { role := Role.tool, content := content }
          err := none
          invoked := [f.name] }

/-! ## The conversation loop (`Chat` in `client.go`) -/

/-- The result of `ollama.Chat` as Go returns it: `(&rsp, nil)` on a normal
answer, `(nil, err)` on a transport failure, `(&rsp, err)` when a tool
dispatch fails; `outOfFuel` marks exhaustion of the explicit fuel that stands
in for the unbounded Go `for` loop. -/
inductive ChatOutcome where
  | response (rsp : Response)
  | transportFailure (e : String)
  | dispatchFailure (rsp : Response) (e : String)
  | outOfFuel
  deriving Repr

/-- The inner dispatch loop of `Chat`: call the toolkit for every tool call of
the latest message in order, appending each resulting tool-role message to the
request history; the first dispatch error aborts the loop and is returned. -/
def dispatchCalls (tk : Toolkit) : List Message → List ToolCall → Except String (List Message)
  | msgs, [] => .ok msgs
  | msgs, c :: rest =>
    let r := tk.dispatch c
    match r.err with
    | some e => .error e
    | none => dispatchCalls tk (msgs ++ [r.msg]) rest

/-- Model of `ollama.Chat`, with the transport collaborator abstracted as `exchange`
and the unbounded `for` loop given explicit fuel.  Besides the outcome it
returns the trace of message histories submitted to the transport. -/
def chatLoop (tk : Option Toolkit)
    (exchange : List Message → Except String Response) :
    Nat → List Message → ChatOutcome × List (List Message)
  | 0, _ => (ChatOutcome.outOfFuel, [])
  | fuel + 1, msgs =>
    match exchange msgs with
    | .error e => (ChatOutcome.transportFailure e, [msgs])
    | .ok rsp =>
      match tk, rsp.message.toolCalls with
      | none, _ => (ChatOutcome.response rsp, [msgs])
      | some _, [] => (ChatOutcome.response rsp, [msgs])
      | some k, c :: rest =>
        match dispatchCalls k msgs (c :: rest) with
        | .error e => (ChatOutcome.dispatchFailure rsp e, [msgs])
        | .ok msgs2 =>
          let r := chatLoop tk exchange fuel msgs2
          (r.1, msgs :: r.2)

/-! ## Concrete fixtures

The `hello` tool of `chat/tool/call_test.go` / `bind_test.go`: a callable
taking one struct whose sole exported field `Name` carries the tags
`json:"name"` and `use:"who should we say hello to?"`, and returning a
content value plus an error. -/

/-- The `Name` field of `hello`'s parameter struct. -/
def nameField : GoField :=
  .mk "Name" true false (some "name") "who should we say hello to?" "" .string .nil

/-- The reflected signature of `hello`. -/
def helloSig : GoFuncSig :=
  { goName := "github.com/swdunlop/ollama-client/chat/tool.hello"
    inputs := [{ kind := .struct, fields := .cons nameField .nil }]
    outputs := [⟨false⟩, ⟨true⟩] }

/-- The construction `tool.New(tool.Func(hello), tool.Description("says hello to someone"))`,
the construction exercised by `TestCall`. -/
def helloOptions : List ToolOption :=
  [.func helloSig, .description "says hello to someone"]

/-- The tool state `tool.New` produces for `helloOptions`. -/
def helloBound : ToolState :=
  { name := "hello"
    description := "says hello to someone"
    parametersType := "object"
    properties := [("name", { type := "string", description := "who should we say hello to?" })]
    required := []
    inputType := some { kind := .struct, fields := .cons nameField .nil }
    expectsContext := false
    returnsErrors := true }

/-! ## Claim C1 -/

/-- C1 (code_bug evaluation): the spec and the binder's own documentation say
every named non-`Optional` field of a successfully bound callable lands in
`required`, but `bindInputParameters` never appends to `required` at all: the
`hello` callable binds and validates successfully, its named field `name`
(which is not wrapped in `Optional`) is a property of the descriptor, yet the
descriptor's `required` set is empty. -/
theorem c1_bound_hello_has_empty_required :
    toolNew helloOptions = Except.ok helloBound ∧
    lookupProp helloBound.properties "name" =
      some { type := "string", description := "who should we say hello to?" } ∧
    helloBound.required = [] :=
  ⟨rfl, rfl, rfl⟩

/-! ## Claim C2 -/

deriving instance DecidableEq for Except

/-- C2 (counterexample): with Go's JSON behaviour for `int64`, encoding the
absent `Optional` produces `null`, and `Optional.UnmarshalJSON` decodes `null`
successfully (Go's `json.Unmarshal` of `null` leaves the fresh zero value
untouched and reports no error) and therefore marks the receiver *present*:
the absent state does not survive the round trip. -/
theorem c2_absent_does_not_round_trip :
    Optional.roundTrip intCodec (Optional.noneOf 0) =
      Except.ok (Optional.someOf 0) ∧
    Optional.roundTrip intCodec (Optional.noneOf 0) ≠
      Except.ok (Optional.noneOf 0) := by
  exact ⟨rfl, by decide⟩

/-- C2 (amended): for any underlying codec that decodes `null` by leaving the
target unchanged (Go's behaviour) and round-trips `v`, encoding then decoding
`present(v)` yields `present(v)`, but encoding then decoding `absent` yields
`present(zero)` — the value is unconditionally marked present. -/
theorem c2_round_trip_amended {T : Type} (c : GoJSONCodec T) (v : T) (jv : Json)
    (hnull : c.unmarshalInto Json.null c.zero = .ok c.zero)
    (hmv : c.marshal v = .ok jv)
    (hvv : c.unmarshalInto jv c.zero = .ok v) :
    Optional.roundTrip c (Optional.noneOf c.zero) =
      Except.ok (Optional.someOf c.zero) ∧
    Optional.roundTrip c (Optional.someOf v) = Except.ok (Optional.someOf v) := by
  constructor <;>
    simp [Optional.roundTrip, Optional.marshalJSON, Optional.unmarshalJSON,
      Optional.noneOf, Optional.someOf, hnull, hmv, hvv]

/-- C2 (witness): the amended round trip at the `int64` codec and `v = 5`. -/
theorem c2_round_trip_amended_witness :
    Optional.roundTrip intCodec (Optional.noneOf intCodec.zero) =
      Except.ok (Optional.someOf intCodec.zero) ∧
    Optional.roundTrip intCodec (Optional.someOf 5) =
      Except.ok (Optional.someOf 5) :=
  c2_round_trip_amended intCodec 5 (Json.num 5) rfl rfl rfl

/-! ## Claim C3 -/

/-- A zero-argument callable returning one content value, the shape the spec
says `bind` accepts and the source's own `TestBind/NoContext/NoInput` test
expects to fail. -/
def zeroInputSig : GoFuncSig :=
  { goName := "main.zero", inputs := [], outputs := [⟨false⟩] }

/-- A two-argument callable whose first argument is a plain string (not a
capability context) and whose second is a struct. -/
def twoNonContextSig : GoFuncSig :=
  { goName := "main.two"
    inputs := [{ kind := .string }, { kind := .struct, fields := .cons nameField .nil }]
    outputs := [⟨false⟩] }

/-- C3 (counterexample): the claim's arity rule fails on the code in both
directions.  A zero-argument callable is *rejected* with the bad-input-arity
bind error (the claim says zero arguments are accepted), and a two-argument
callable whose first argument is not a capability context is *accepted* (the
claim says the only two-argument shape is context-then-struct). -/
theorem c3_arity_counterexample :
    (ToolState.bind initialTool zeroInputSig).err =
      some "incorrect input parameters for tool \"zero\"" ∧
    (ToolState.bind initialTool twoNonContextSig).err = none :=
  ⟨rfl, rfl⟩

/-- The output shapes `(*tool).bind` accepts: one content value, or a content
value plus an `error`-implementing second value. -/
def outputsOK (outputs : List GoOut) : Prop :=
  (∃ o, outputs = [o]) ∨ (∃ o e, outputs = [o, e] ∧ e.isError = true)

/-- The input shapes `(*tool).bind` actually accepts: one struct argument, or
two arguments whose second is a struct (the first is typically a
`context.Context` but this is not checked). -/
def inputShapeAccepted (sig : GoFuncSig) : Prop :=
  (∃ a, sig.inputs = [a] ∧ a.kind = GoKind.struct) ∨
  (∃ a b, sig.inputs = [a, b] ∧ b.kind = GoKind.struct)

theorem bindWith_err (t : ToolState) (input : GoType) (outputs : List GoOut)
    (hout : outputsOK outputs) :
    (ToolState.bindWith t input outputs).err =
      if input.kind = GoKind.struct then t.err
      else some ("incorrect input parameter for tool " ++ goQuote t.name
        ++ "; got string, but a structure is required") := by
  rcases hout with ⟨o, rfl⟩ | ⟨o, e, rfl, he⟩
  · by_cases hk : input.kind = GoKind.struct <;>
      simp [ToolState.bindWith, checkOutputs, bindFields, hk]
  · by_cases hk : input.kind = GoKind.struct <;>
      simp [ToolState.bindWith, checkOutputs, bindFields, hk, he]

/-- C3 (amended): for a callable whose outputs `bind` accepts, binding
succeeds exactly when the callable takes one struct argument or two arguments
whose second is a struct — the first argument of a two-argument callable need
not be a capability context; and every callable of any other input arity
(zero, or three or more) fails with the bad-input-arity bind error. -/
theorem c3_input_arity_amended (sig : GoFuncSig) (hout : outputsOK sig.outputs) :
    ((ToolState.bind initialTool sig).err = none ↔ inputShapeAccepted sig) ∧
    (∀ sig2 : GoFuncSig, sig2.inputs.length ≠ 1 → sig2.inputs.length ≠ 2 →
      (ToolState.bind initialTool sig2).err =
        some ("incorrect input parameters for tool "
          ++ goQuote (stripFuncName sig2.goName))) := by
  constructor
  · rcases sig with ⟨goName, inputs, outputs⟩
    simp only [inputShapeAccepted] at *
    rcases inputs with _ | ⟨a, _ | ⟨b, _ | ⟨c, rest⟩⟩⟩
    · simp [ToolState.bind, initialTool]
    · rw [show ToolState.bind initialTool ⟨goName, [a], outputs⟩ =
          ToolState.bindWith { initialTool with name := stripFuncName goName } a outputs
        from rfl,
        bindWith_err _ _ _ hout]
      by_cases hk : a.kind = GoKind.struct <;> simp [hk, initialTool]
    · rw [show ToolState.bind initialTool ⟨goName, [a, b], outputs⟩ =
          ToolState.bindWith
            { initialTool with name := stripFuncName goName, expectsContext := a.isContext }
            b outputs
        from rfl,
        bindWith_err _ _ _ hout]
      by_cases hk : b.kind = GoKind.struct
      · simp [hk, initialTool]
        exact ⟨a, b, ⟨rfl, rfl⟩, hk⟩
      · simp [hk, initialTool]
    · simp [ToolState.bind, initialTool]
  · intro sig2 h1 h2
    rcases sig2 with ⟨g2, ins, outs⟩
    rcases ins with _ | ⟨a, _ | ⟨b, _ | ⟨c, rest⟩⟩⟩
    · simp [ToolState.bind, initialTool]
    · simp at h1
    · simp at h2
    · simp [ToolState.bind, initialTool]

/-- C3 (witness): the amended statement applied to the concrete `hello`
signature, whose outputs are a content value and an error. -/
theorem c3_input_arity_amended_witness :
    ((ToolState.bind initialTool helloSig).err = none ↔ inputShapeAccepted helloSig) ∧
    (∀ sig2 : GoFuncSig, sig2.inputs.length ≠ 1 → sig2.inputs.length ≠ 2 →
      (ToolState.bind initialTool sig2).err =
        some ("incorrect input parameters for tool "
          ++ goQuote (stripFuncName sig2.goName))) :=
  c3_input_arity_amended helloSig (Or.inr ⟨⟨false⟩, ⟨true⟩, rfl, rfl⟩)

/-! ## Claim C4 -/

/-- When the calls before the failing one all dispatch successfully, the
inner loop of `Chat` appends their results and then aborts with the first
failing call's error, exactly as the Go loop returns `(&rsp, err)` after the
earlier appends. -/
theorem dispatchCalls_error_after (k : Toolkit) (c : ToolCall) (e : String)
    (hc : (k.dispatch c).err = some e) (rest : List ToolCall) :
    ∀ (done : List ToolCall) (msgs : List Message),
      (∀ d ∈ done, (k.dispatch d).err = none) →
      dispatchCalls k msgs (done ++ c :: rest) = .error e := by
  intro done
  induction done with
  | nil => intro msgs _; simp [dispatchCalls, hc]
  | cons d ds ih =>
    intro msgs h
    have hd := h d (List.mem_cons_self _ _)
    simp [dispatchCalls, hd,
      ih (msgs ++ [(k.dispatch d).msg])
        (fun u hu => h u (List.mem_cons_of_mem _ hu))]

/-- C4: whenever toolkit dispatch of a tool call fails — malformed call,
unknown name, or any invoker failure — the returned message has the tool role
and its content is exactly the JSON error envelope for the returned error;
and whenever such a failing call appears anywhere among the latest message's
tool calls, every call before it dispatching successfully, the conversation
loop terminates surfacing that error to the caller instead of resubmitting
(the trace shows a single exchange). -/
theorem c4_dispatch_error_envelope_and_termination
    (k : Toolkit) (c : ToolCall) (e : String)
    (hc : (k.dispatch c).err = some e) :
    ((k.dispatch c).msg.role = Role.tool ∧
      (k.dispatch c).msg.content = errorEnvelope e) ∧
    (∀ (exchange : List Message → Except String Response) (msgs : List Message)
        (rsp : Response) (done rest : List ToolCall) (fuel : Nat),
      exchange msgs = Except.ok rsp →
      rsp.message.toolCalls = done ++ c :: rest →
      (∀ d ∈ done, (k.dispatch d).err = none) →
      chatLoop (some k) exchange (fuel + 1) msgs =
        (ChatOutcome.dispatchFailure rsp e, [msgs])) := by
  constructor
  · rcases c with ⟨_ | f⟩
    · simp [Toolkit.dispatch, dispatchError] at hc ⊢
      simp [hc]
    · rcases ht : k.table f.name with _ | t
      · simp [Toolkit.dispatch, dispatchError, ht] at hc ⊢
        simp [hc]
      · rcases hcall : t.call f.arguments with e2 | content
        · simp [Toolkit.dispatch, dispatchError, ht, hcall] at hc ⊢
          simp [hc]
        · simp [Toolkit.dispatch, dispatchError, ht, hcall] at hc
  · intro exchange msgs rsp done rest fuel hx hcalls hdone
    have hd : dispatchCalls k msgs (done ++ c :: rest) = .error e :=
      dispatchCalls_error_after k c e hc rest done msgs hdone
    rcases done with _ | ⟨d, ds⟩
    · simp only [List.nil_append] at hcalls hd
      simp [chatLoop, hx, hcalls, hd]
    · simp only [List.cons_append] at hcalls hd
      simp [chatLoop, hx, hcalls, hd]

/-- The tool call issued against an unregistered name `nope`. -/
def nopeCall : ToolCall := ⟨some ⟨"nope", Json.null⟩⟩

/-- A registered tool answering every invocation with the JSON string
`"ok"`. -/
def echoTool : GoToolI := { specName := "echo", call := fun _ => .ok "\"ok\"" }

/-- A call to `echo`. -/
def echoCall : ToolCall := ⟨some ⟨"echo", Json.str "x"⟩⟩

/-- A response whose assistant message carries a successful call to `echo`
followed by the failing call `nopeCall`. -/
def rspEchoThenNope : Response :=
  { message := { role := .assistant, toolCalls := [echoCall, nopeCall] } }

/-- A transport that always answers with `rspEchoThenNope`. -/
def echoThenNopeExchange : List Message → Except String Response :=
  fun _ => .ok rspEchoThenNope

/-- C4 (witness): dispatching `nope` against the one-tool toolkit fails with
the enveloped message, and the loop, after dispatching the preceding `echo`
call successfully, terminates on the `nope` failure after one exchange. -/
theorem c4_dispatch_error_envelope_and_termination_witness :
    ((((toolkitNew [echoTool]).dispatch nopeCall).msg.role = Role.tool ∧
      ((toolkitNew [echoTool]).dispatch nopeCall).msg.content =
        errorEnvelope "tool \"nope\" not found") ∧
     chatLoop (some (toolkitNew [echoTool])) echoThenNopeExchange 1 [] =
       (ChatOutcome.dispatchFailure rspEchoThenNope "tool \"nope\" not found",
         [[]])) := by
  have h := c4_dispatch_error_envelope_and_termination
    (toolkitNew [echoTool]) nopeCall "tool \"nope\" not found" rfl
  refine ⟨h.1, h.2 echoThenNopeExchange [] rspEchoThenNope [echoCall] [] 0
    rfl rfl ?_⟩
  intro d hd
  rcases List.mem_singleton.mp hd with rfl
  rfl

/-! ## Claim C5 -/

/-- C5: when the response's message carries no tool calls, or no toolkit is
bound to the request, the conversation loop terminates after exactly that one
exchange (the submitted-history trace is the singleton) and returns the
response unmodified. -/
theorem c5_no_tool_calls_single_exchange
    (tk : Option Toolkit) (exchange : List Message → Except String Response)
    (fuel : Nat) (msgs : List Message) (rsp : Response)
    (hx : exchange msgs = Except.ok rsp)
    (h : tk = none ∨ rsp.message.toolCalls = []) :
    chatLoop tk exchange (fuel + 1) msgs = (ChatOutcome.response rsp, [msgs]) := by
  rcases h with rfl | hcalls
  · simp [chatLoop, hx]
  · rcases tk with _ | k
    · simp [chatLoop, hx]
    · simp [chatLoop, hx, hcalls]

/-- A response with no tool calls. -/
def rspPlain : Response := { message := { role := .assistant, content := "hi" } }

/-- A transport that always answers with `rspPlain`. -/
def plainExchange : List Message → Except String Response := fun _ => .ok rspPlain

/-- C5 (witness): a toolkit-bound conversation whose first response has no
tool calls stops after one exchange with that response. -/
theorem c5_no_tool_calls_single_exchange_witness :
    chatLoop (some (toolkitNew [])) plainExchange 1 [] =
      (ChatOutcome.response rspPlain, [[]]) :=
  c5_no_tool_calls_single_exchange (some (toolkitNew [])) plainExchange 0 []
    rspPlain rfl (Or.inr rfl)

/-! ## Claim C6 -/

/-- When every dispatch succeeds, the inner loop of `Chat` appends exactly the
dispatched tool-role messages, in call order, to the history. -/
theorem dispatchCalls_ok (k : Toolkit) :
    ∀ (calls : List ToolCall) (msgs : List Message),
      (∀ c ∈ calls, (k.dispatch c).err = none) →
      dispatchCalls k msgs calls =
        .ok (msgs ++ calls.map fun c => (k.dispatch c).msg) := by
  intro calls
  induction calls with
  | nil => intro msgs _; simp [dispatchCalls]
  | cons c rest ih =>
    intro msgs h
    have hc := h c (List.mem_cons_self _ _)
    have hrest : ∀ cc ∈ rest, (k.dispatch cc).err = none :=
      fun cc hcc => h cc (List.mem_cons_of_mem _ hcc)
    simp [dispatchCalls, hc, ih (msgs ++ [(k.dispatch c).msg]) hrest]

/-- Whatever the dispatch loop returns extends the history it was given: the
history is only ever appended to. -/
theorem dispatchCalls_extends (k : Toolkit) :
    ∀ (calls : List ToolCall) (msgs msgs2 : List Message),
      dispatchCalls k msgs calls = .ok msgs2 → ∃ s, msgs2 = msgs ++ s := by
  intro calls
  induction calls with
  | nil =>
    intro msgs msgs2 h
    simp [dispatchCalls] at h
    exact ⟨[], by simp [h]⟩
  | cons c rest ih =>
    intro msgs msgs2 h
    rcases he : (k.dispatch c).err with _ | e
    · rw [show dispatchCalls k msgs (c :: rest) =
          dispatchCalls k (msgs ++ [(k.dispatch c).msg]) rest from by
        simp [dispatchCalls, he]] at h
      rcases ih _ _ h with ⟨s, rfl⟩
      exact ⟨(k.dispatch c).msg :: s, by simp⟩
    · simp [dispatchCalls, he] at h

/-- Every nonempty run of the loop submits the initial history first. -/
theorem chatLoop_trace_head (tk : Option Toolkit)
    (exchange : List Message → Except String Response) (fuel : Nat)
    (msgs : List Message) :
    (chatLoop tk exchange (fuel + 1) msgs).2.head? = some msgs := by
  rcases hx : exchange msgs with e | rsp
  · simp [chatLoop, hx]
  · rcases tk with _ | k
    · simp [chatLoop, hx]
    · rcases hcalls : rsp.message.toolCalls with _ | ⟨c, rest⟩
      · simp [chatLoop, hx, hcalls]
      · rcases hd : dispatchCalls k msgs (c :: rest) with e | msgs2
        · simp [chatLoop, hx, hcalls, hd]
        · simp [chatLoop, hx, hcalls, hd]

/-- Along the trace of submitted histories, each history extends the previous
one by appending: the conversation is never reordered or rewritten. -/
theorem chatLoop_trace_appends (tk : Option Toolkit)
    (exchange : List Message → Except String Response) :
    ∀ (fuel : Nat) (msgs : List Message),
      List.Chain' (fun a b => ∃ s, b = a ++ s)
        (chatLoop tk exchange fuel msgs).2 := by
  intro fuel
  induction fuel with
  | zero => intro msgs; simp [chatLoop]
  | succ n ih =>
    intro msgs
    rcases hx : exchange msgs with e | rsp
    · simp [chatLoop, hx]
    · rcases tk with _ | k
      · simp [chatLoop, hx]
      · rcases hcalls : rsp.message.toolCalls with _ | ⟨c, rest⟩
        · simp [chatLoop, hx, hcalls]
        · rcases hd : dispatchCalls k msgs (c :: rest) with e | msgs2
          · simp [chatLoop, hx, hcalls, hd]
          · have hsub := ih msgs2
            have hext := dispatchCalls_extends k (c :: rest) msgs msgs2 hd
            rw [show (chatLoop (some k) exchange (n + 1) msgs).2 =
                msgs :: (chatLoop (some k) exchange n msgs2).2 from by
              simp [chatLoop, hx, hcalls, hd]]
            rw [List.chain'_cons']
            refine ⟨?_, hsub⟩
            intro h hh
            rcases n with _ | m
            · simp [chatLoop] at hh
            · rw [chatLoop_trace_head (some k) exchange m msgs2] at hh
              cases hh
              exact hext

/-- C6: when the latest assistant message carries tool calls and each of them
dispatches successfully, the loop dispatches every call in the order they
appear, appends the resulting tool-role messages to the history in that same
order, and resubmits the enlarged history; moreover every history in the
submission trace extends its predecessor only by appending. -/
theorem c6_dispatch_in_order_append_resubmit
    (k : Toolkit) (exchange : List Message → Except String Response)
    (fuel : Nat) (msgs : List Message) (rsp : Response) (c : ToolCall)
    (rest : List ToolCall)
    (hx : exchange msgs = Except.ok rsp)
    (hcalls : rsp.message.toolCalls = c :: rest)
    (hok : ∀ cc ∈ c :: rest, (k.dispatch cc).err = none) :
    chatLoop (some k) exchange (fuel + 1) msgs =
      ((chatLoop (some k) exchange fuel
          (msgs ++ (c :: rest).map fun cc => (k.dispatch cc).msg)).1,
        msgs :: (chatLoop (some k) exchange fuel
          (msgs ++ (c :: rest).map fun cc => (k.dispatch cc).msg)).2) ∧
    List.Chain' (fun a b => ∃ s, b = a ++ s)
      (chatLoop (some k) exchange (fuel + 1) msgs).2 := by
  have hd := dispatchCalls_ok k (c :: rest) msgs hok
  exact ⟨by simp [chatLoop, hx, hcalls, hd],
    chatLoop_trace_appends (some k) exchange (fuel + 1) msgs⟩

/-- A response whose assistant message carries the single call `echoCall`. -/
def rspEcho : Response :=
  { message := { role := .assistant, toolCalls := [echoCall] } }

/-- A transport that requests `echo` on the first exchange and answers plainly
afterwards. -/
def echoExchange : List Message → Except String Response :=
  fun ms => if ms.length = 0 then .ok rspEcho else .ok rspPlain

/-- C6 (witness): the single-call scenario against the one-tool toolkit. -/
theorem c6_dispatch_in_order_append_resubmit_witness :
    chatLoop (some (toolkitNew [echoTool])) echoExchange (1 + 1) [] =
      ((chatLoop (some (toolkitNew [echoTool])) echoExchange 1
          (([] : List Message) ++ ([echoCall].map fun cc =>
            ((toolkitNew [echoTool]).dispatch cc).msg))).1,
        ([] : List Message) :: (chatLoop (some (toolkitNew [echoTool])) echoExchange 1
          (([] : List Message) ++ ([echoCall].map fun cc =>
            ((toolkitNew [echoTool]).dispatch cc).msg))).2) ∧
    List.Chain' (fun a b => ∃ s, b = a ++ s)
      (chatLoop (some (toolkitNew [echoTool])) echoExchange (1 + 1) []).2 :=
  c6_dispatch_in_order_append_resubmit (toolkitNew [echoTool]) echoExchange 1 []
    rspEcho echoCall [] rfl rfl
    (by
      intro cc hcc
      rcases List.mem_singleton.mp hcc with rfl
      rfl)

/-! ## Claim C7 -/

/-- Folding the registration loop over tools none of which carries the looked
up name leaves the table entry untouched. -/
theorem buildTable_skips (nm : String) :
    ∀ (tools : List GoToolI) (acc : String → Option GoToolI),
      (∀ t ∈ tools, t.specName ≠ nm) →
      (tools.foldl
        (fun (acc : String → Option GoToolI) (t : GoToolI) =>
          Function.update acc t.specName (some t)) acc) nm = acc nm := by
  intro tools
  induction tools with
  | nil => intro acc _; rfl
  | cons t rest ih =>
    intro acc h
    have ht : t.specName ≠ nm := h t (List.mem_cons_self _ _)
    simp only [List.foldl_cons]
    rw [ih _ (fun u hu => h u (List.mem_cons_of_mem _ hu))]
    exact Function.update_noteq (Ne.symm ht) _ _

/-- C7: dispatching a call whose function name is registered by no tool of the
toolkit fails with the tool-not-found error identifying that name, and no
bound tool's callable is invoked. -/
theorem c7_unknown_name_fails_without_invocation
    (tools : List GoToolI) (f : ToolCallFunction)
    (hreg : ∀ t ∈ tools, t.specName ≠ f.name) :
    ((toolkitNew tools).dispatch ⟨some f⟩).err =
      some ("tool " ++ goQuote f.name ++ " not found") ∧
    ((toolkitNew tools).dispatch ⟨some f⟩).invoked = [] := by
  have ht : (toolkitNew tools).table f.name = none :=
    buildTable_skips f.name tools (fun _ => none) hreg
  constructor <;> simp [Toolkit.dispatch, ht, dispatchError]

/-- C7 (witness): the one-tool toolkit knows no `nope`. -/
theorem c7_unknown_name_fails_without_invocation_witness :
    (((toolkitNew [echoTool]).dispatch ⟨some ⟨"nope", Json.null⟩⟩).err =
      some ("tool " ++ goQuote "nope" ++ " not found")) ∧
    ((toolkitNew [echoTool]).dispatch ⟨some ⟨"nope", Json.null⟩⟩).invoked = [] :=
  c7_unknown_name_fails_without_invocation [echoTool] ⟨"nope", Json.null⟩
    (by
      intro t ht
      rcases List.mem_singleton.mp ht with rfl
      decide)

/-! ## Claim C8 -/

/-- C8: when the raw argument payload fails to decode into the bound
callable's structured-parameter type, the invoker returns the decode cause
wrapped together with the tool's name, and the wrapped callable is never
invoked — no content is produced. -/
theorem c8_decode_failure_wraps_and_never_invokes
    {I C : Type} (t : RuntimeTool I C) (parameters : Json) (cause : String)
    (hdec : t.decodeInput parameters = .error cause) :
    runtimeCall t parameters =
      (.error (cause ++ " while parsing parameters for " ++ goQuote t.name),
        false) := by
  simp [runtimeCall, hdec]

/-- A bound tool over `int64` parameters that rejects non-numeric argument
payloads, mirroring Go's decoder. -/
def strictTool : RuntimeTool Int Int :=
  { name := "strict"
    decodeInput := fun js =>
      match js with
      | .num n => .ok n
      | _ => .error "json: cannot unmarshal object into Go value of type int64"
    fn := fun n => (n + 1, none)
    returnsErrors := true
    marshalContent := fun n => .ok (toString n) }

/-- C8 (witness): feeding `strictTool` an object payload. -/
theorem c8_decode_failure_wraps_and_never_invokes_witness :
    runtimeCall strictTool (Json.obj []) =
      (.error ("json: cannot unmarshal object into Go value of type int64"
        ++ " while parsing parameters for " ++ goQuote "strict"), false) :=
  c8_decode_failure_wraps_and_never_invokes strictTool (Json.obj [])
    "json: cannot unmarshal object into Go value of type int64" rfl

/-! ## Claim C9 -/

/-- Options declaring a parameter whose *name* is empty but whose type and
description are not. -/
def c9Options : List ToolOption := [.description "d", .parameter "" "string" "x"]

/-- The tool state after `c9Options` (before validation). -/
def c9BadState : ToolState :=
  { description := "d"
    parametersType := "object"
    properties := [("", { type := "string", description := "x" })] }

/-- C9 (counterexample): construction also fails when a property has an empty
*name*, a case absent from the claim's list: `New(Description("d"),
Parameter("", "string", "x"))` aborts with a validation error although the
description is non-empty, every property has non-empty type and description,
and `required` is empty. -/
theorem c9_empty_name_defeats_exactness :
    toolNew c9Options = Except.error "all parameters must have names" ∧
    runOptions initialTool c9Options = Except.ok c9BadState ∧
    c9BadState.description ≠ "" ∧
    (∀ pr ∈ c9BadState.properties, pr.2.type ≠ "" ∧ pr.2.description ≠ "") ∧
    (∀ nm ∈ c9BadState.required, lookupProp c9BadState.properties nm ≠ none) :=
  ⟨rfl, rfl, by decide, by decide, by decide⟩

/-- The descriptor invariant `(*tool).validate` actually enforces: non-empty
tool description; every property named, typed and described; every required
name backed by a property. -/
def descriptorInvariant (t : ToolState) : Prop :=
  t.description ≠ "" ∧
  (∀ pr ∈ t.properties, pr.1 ≠ "" ∧ pr.2.type ≠ "" ∧ pr.2.description ≠ "") ∧
  (∀ nm ∈ t.required, lookupProp t.properties nm ≠ none)

theorem validateDescription_eq_none (t : ToolState) :
    validateDescription t = none ↔ t.description ≠ "" := by
  by_cases h : t.description = "" <;> simp [validateDescription, h]

theorem validateParameter_eq_none (p : ToolFunctionProperty) :
    validateParameter p = none ↔ p.type ≠ "" ∧ p.description ≠ "" := by
  by_cases h1 : p.type = "" <;> by_cases h2 : p.description = "" <;>
    simp [validateParameter, h1, h2]

theorem validateParameters_eq_none (t : ToolState) :
    validateParameters t = none ↔
      ∀ pr ∈ t.properties, pr.1 ≠ "" ∧ pr.2.type ≠ "" ∧ pr.2.description ≠ "" := by
  unfold validateParameters
  rw [List.findSome?_eq_none_iff]
  constructor
  · intro h pr hpr
    have hthis := h pr hpr
    by_cases h1 : pr.1 = ""
    · simp [h1] at hthis
    · rcases hv : validateParameter pr.2 with _ | e
      · have hv2 := (validateParameter_eq_none pr.2).mp hv
        exact ⟨h1, hv2.1, hv2.2⟩
      · simp [h1, hv] at hthis
  · intro h pr hpr
    rcases h pr hpr with ⟨h1, h2, h3⟩
    have hv : validateParameter pr.2 = none :=
      (validateParameter_eq_none pr.2).mpr ⟨h2, h3⟩
    simp [h1, hv]

theorem validateRequired_eq_none (t : ToolState) :
    validateRequired t = none ↔
      ∀ nm ∈ t.required, lookupProp t.properties nm ≠ none := by
  unfold validateRequired
  rw [List.findSome?_eq_none_iff]
  constructor
  · intro h nm hnm
    have hthis := h nm hnm
    rcases hl : lookupProp t.properties nm with _ | p
    · simp [hl] at hthis
    · simp [hl]
  · intro h nm hnm
    rcases hl : lookupProp t.properties nm with _ | p
    · exact absurd hl (h nm hnm)
    · simp [hl]

/-- Validation theorem: `(*tool).validate` succeeds exactly when the descriptor invariant
holds. -/
theorem validate_eq_none_iff (t : ToolState) :
    t.validate = none ↔ descriptorInvariant t := by
  have hsplit : t.validate = none ↔
      (validateDescription t = none ∧ validateParameters t = none ∧
        validateRequired t = none) := by
    rcases hd : validateDescription t with _ | e
    · rcases hp : validateParameters t with _ | e2
      · simp [ToolState.validate, hd, hp]
      · simp [ToolState.validate, hd, hp]
    · simp [ToolState.validate, hd]
  rw [hsplit, validateDescription_eq_none, validateParameters_eq_none,
    validateRequired_eq_none]
  exact Iff.rfl

/-- C9 (amended): `tool.New` runs validation once, after all options and
fixups, and — provided the options themselves raised no sticky error —
construction succeeds exactly when the descriptor invariant holds, where the
invariant additionally demands (beyond the claim's list) that every property
name is non-empty; consequently every successfully constructed descriptor
satisfies the invariant. -/
theorem c9_validation_amended (options : List ToolOption) :
    (∀ t2, toolNew options = Except.ok t2 → descriptorInvariant t2) ∧
    (∀ t, runOptions initialTool options = Except.ok t →
      ((∃ t2, toolNew options = Except.ok t2) ↔
        descriptorInvariant (applyFixups t))) := by
  constructor
  · intro t2 h
    unfold toolNew at h
    rcases hr : runOptions initialTool options with e | t
    · rw [hr] at h; cases h
    · rw [hr] at h
      rcases hv : (applyFixups t).validate with _ | e
      · simp [hv] at h
        rw [← h]
        exact (validate_eq_none_iff _).mp hv
      · simp [hv] at h
  · intro t hr
    unfold toolNew
    rw [hr]
    rcases hv : (applyFixups t).validate with _ | e
    · simp only [hv]
      constructor
      · intro _
        exact (validate_eq_none_iff _).mp hv
      · intro _
        exact ⟨applyFixups t, rfl⟩
    · simp only [hv]
      constructor
      · rintro ⟨t2, ht2⟩
        cases ht2
      · intro hinv
        rw [(validate_eq_none_iff _).mpr hinv] at hv
        cases hv

/-- Options producing a well-formed descriptor. -/
def goodOptions : List ToolOption := [.description "d", .parameter "p" "string" "u"]

/-- The tool state after `goodOptions` (before validation). -/
def goodState : ToolState :=
  { description := "d"
    parametersType := "object"
    properties := [("p", { type := "string", description := "u" })] }

/-- C9 (witness): the amended statement at `goodOptions`, with the option
stage discharged concretely. -/
theorem c9_validation_amended_witness :
    (∃ t2, toolNew goodOptions = Except.ok t2) ↔
      descriptorInvariant (applyFixups goodState) :=
  (c9_validation_amended goodOptions).2 goodState rfl

/-! ## Claim C10 -/

/-- Registering one more tool overwrites exactly its own name. -/
theorem buildTable_concat (tools : List GoToolI) (t : GoToolI) (nm : String) :
    buildTable (tools ++ [t]) nm =
      if nm = t.specName then some t else buildTable tools nm := by
  unfold buildTable
  rw [List.foldl_append]
  simp [Function.update_apply]

/-- When some registered tool carries the looked-up name, the table resolves
to the *last* registered tool with that name. -/
theorem buildTable_last (nm : String) :
    ∀ tools : List GoToolI, (∃ t ∈ tools, t.specName = nm) →
      ∃ t2 pre2 suf2, tools = pre2 ++ t2 :: suf2 ∧ t2.specName = nm ∧
        (∀ u ∈ suf2, u.specName ≠ nm) ∧ buildTable tools nm = some t2 := by
  intro tools
  induction tools using List.reverseRecOn with
  | nil => rintro ⟨t, ht, _⟩; cases ht
  | append_singleton ts t ih =>
    intro hmem
    by_cases hn : nm = t.specName
    · exact ⟨t, ts, [], by simp, hn.symm, by simp,
        by rw [buildTable_concat]; simp [hn]⟩
    · have hmem2 : ∃ u ∈ ts, u.specName = nm := by
        rcases hmem with ⟨u, hu, hname⟩
        rcases List.mem_append.mp hu with h | h
        · exact ⟨u, h, hname⟩
        · rcases List.mem_singleton.mp h with rfl
          exact absurd hname.symm hn
      rcases ih hmem2 with ⟨t2, pre2, suf2, heq, hname2, hsuf, htab⟩
      refine ⟨t2, pre2, suf2 ++ [t], ?_, hname2, ?_, ?_⟩
      · rw [heq]; simp
      · intro u hu
        rcases List.mem_append.mp hu with h | h
        · exact hsuf u h
        · rcases List.mem_singleton.mp h with rfl
          exact fun hc => hn hc.symm
      · rw [buildTable_concat]
        simp [hn, htab]

/-- Dispatching straight to a given tool, the shape `(*toolkit).Call` takes
once the lookup resolved. -/
def dispatchTo (t : GoToolI) (nm : String) (args : Json) : DispatchResult :=
  match t.call args with
  | .error e => dispatchError e [nm]
  | .ok content =>
    { msg := { role := Role.tool, content := content }
      err := none
      invoked := [nm] }

/-- Dispatch delegates to whatever tool the table resolves. -/
theorem dispatch_of_table (tk : Toolkit) (f : ToolCallFunction) (t : GoToolI)
    (ht : tk.table f.name = some t) :
    tk.dispatch ⟨some f⟩ = dispatchTo t f.name f.arguments := by
  rcases hc : t.call f.arguments with e | content <;>
    simp [Toolkit.dispatch, dispatchTo, ht, hc]

/-- C10: a toolkit built from a tool sequence containing two tools with the
same descriptor name (the Go constructor has no failure path) still lists
every registered tool in registration order, and dispatch of the duplicated
name delegates to the *last* tool registered under it — a tool at or after
the later duplicate, with no later tool carrying the name. -/
theorem c10_duplicate_names (tools : List GoToolI) (x y : GoToolI)
    (pre mid suf : List GoToolI)
    (hsplit : tools = (pre ++ x :: mid) ++ y :: suf)
    (_hdup : x.specName = y.specName) (args : Json) :
    (toolkitNew tools).tools = tools ∧
    ∃ t2 pre2 suf2, tools = pre2 ++ t2 :: suf2 ∧
      t2.specName = y.specName ∧
      (∀ u ∈ suf2, u.specName ≠ y.specName) ∧
      t2 ∈ y :: suf ∧
      (toolkitNew tools).dispatch ⟨some ⟨y.specName, args⟩⟩ =
        dispatchTo t2 y.specName args := by
  have hmem : ∃ t ∈ tools, t.specName = y.specName :=
    ⟨y, by rw [hsplit]; simp, rfl⟩
  rcases buildTable_last y.specName tools hmem with
    ⟨t2, pre2, suf2, heq, hname2, hsuf, htab⟩
  refine ⟨rfl, t2, pre2, suf2, heq, hname2, hsuf, ?_, ?_⟩
  · rcases le_or_lt (pre ++ x :: mid).length pre2.length with hle | hlt
    · have h1 : tools.drop pre2.length = t2 :: suf2 := by
        rw [heq]; exact List.drop_left _ _
      have h2 : tools.drop (pre ++ x :: mid).length = y :: suf := by
        rw [hsplit]; exact List.drop_left _ _
      have h3 : t2 ∈ tools.drop pre2.length := by
        rw [h1]; exact List.mem_cons_self _ _
      have h4 : tools.drop pre2.length =
          (tools.drop (pre ++ x :: mid).length).drop
            (pre2.length - (pre ++ x :: mid).length) := by
        rw [List.drop_drop, Nat.add_sub_cancel' hle]
      rw [h4, h2] at h3
      exact List.mem_of_mem_drop h3
    · exfalso
      have h1 : tools.drop (pre2.length + 1) = suf2 := by
        rw [heq, show pre2 ++ t2 :: suf2 = (pre2 ++ [t2]) ++ suf2 by simp,
          show pre2.length + 1 = (pre2 ++ [t2]).length by simp]
        exact List.drop_left _ _
      have h3 : y ∈ tools.drop (pre ++ x :: mid).length := by
        rw [show tools.drop (pre ++ x :: mid).length = y :: suf by
          rw [hsplit]; exact List.drop_left _ _]
        exact List.mem_cons_self _ _
      have h4 : tools.drop (pre ++ x :: mid).length =
          (tools.drop (pre2.length + 1)).drop
            ((pre ++ x :: mid).length - (pre2.length + 1)) := by
        rw [List.drop_drop, Nat.add_sub_cancel' hlt]
      rw [h4, h1] at h3
      exact hsuf y (List.mem_of_mem_drop h3) rfl
  · exact dispatch_of_table _ ⟨y.specName, args⟩ t2 htab

/-- A first tool registered under the name `dup`. -/
def dupA : GoToolI := { specName := "dup", call := fun _ => .ok "\"A\"" }

/-- A second tool registered under the same name `dup`. -/
def dupB : GoToolI := { specName := "dup", call := fun _ => .ok "\"B\"" }

/-- C10 (witness): the two-tool duplicate registration. -/
theorem c10_duplicate_names_witness :
    (toolkitNew [dupA, dupB]).tools = [dupA, dupB] ∧
    ∃ t2 pre2 suf2, [dupA, dupB] = pre2 ++ t2 :: suf2 ∧
      t2.specName = dupB.specName ∧
      (∀ u ∈ suf2, u.specName ≠ dupB.specName) ∧
      t2 ∈ dupB :: ([] : List GoToolI) ∧
      (toolkitNew [dupA, dupB]).dispatch ⟨some ⟨dupB.specName, Json.null⟩⟩ =
        dispatchTo t2 dupB.specName Json.null :=
  c10_duplicate_names [dupA, dupB] dupA dupB [] [] [] rfl rfl Json.null

end OllamaClient
